import Mathlib

/-!
Verification of the rustls message deframing core (fork `steffahn/rustls`):
a shallow embedding of `msgs/message.rs`, `msgs/deframer.rs` and `msgs/base.rs`
over byte lists (`List Nat`, each element intended `< 256`), together with
theorems checking the natural-language specification against this embedding.
-/

/-! ## Byte-level codec primitives

The `codec.rs` module (the `Reader` type and the `u8`/`u16`/`u24` codecs) is
not among the provided sources; these primitives are modelled from the spec's
wire-format section (big-endian 1/2/3-byte integers, a reader that fails when
fewer bytes remain than requested). -/

/-- Modelled from the spec: `u8::read` on a reader, one byte. (`codec.rs` is
not among the sources.) Returns the value and the remaining bytes. -/
def u8Read (r : List Nat) : Option (Nat × List Nat) :=
  match r with
  | [] => none
  | b :: rest => some (b, rest)

/-- Modelled from the spec: `u16::read`, two bytes big-endian. -/
def u16Read (r : List Nat) : Option (Nat × List Nat) :=
  match r with
  | a :: b :: rest => some (a * 256 + b, rest)
  | _ => none

/-- Modelled from the spec: `u24::decode`, exactly three bytes big-endian
(`codec.rs` is not among the sources). -/
def decodeU24 (l : List Nat) : Option Nat :=
  match l with
  | [a, b, c] => some (a * 65536 + b * 256 + c)
  | _ => none

/-- Modelled from the spec: `u8::encode` (one byte; a Rust `as u8` cast
truncates, hence the `% 256`). -/
def encodeU8 (v : Nat) : List Nat := [v % 256]

/-- Modelled from the spec: `u16::encode`, two bytes big-endian of a 16-bit
value. -/
def encodeU16 (v : Nat) : List Nat := [v / 256 % 256, v % 256]

/-- Modelled from the spec: `u24::encode`, the low three bytes (big-endian)
of a 32-bit value. -/
def encodeU24 (v : Nat) : List Nat := [v / 65536 % 256, v / 256 % 256, v % 256]

/-- Modelled from the spec: `Reader::sub(len)` — take `len` bytes if at least
that many remain, else fail (`codec.rs` is not among the sources). -/
def readerSub (len : Nat) (r : List Nat) : Option (List Nat × List Nat) :=
  if len ≤ r.length then some (r.take len, r.drop len) else none

/-! ## ContentType and ProtocolVersion

`enums.rs` is not among the sources; both enums are modelled from the spec
(§3): a small closed set of known wire values plus an `unknown` catch-all.
Per the spec every known record-level protocol version lies in the `0x03xx`
family ("unrecognized minor versions are tolerated"). -/

/-- Modelled from the spec: the `ContentType` enum of `enums.rs` (not among
the sources): change-cipher-spec (20), alert (21), handshake (22),
application-data (23), plus a catch-all unknown value. -/
inductive ContentType
  | changeCipherSpec
  | alert
  | handshake
  | applicationData
  | unknown (b : Nat)
  deriving DecidableEq

/-- Modelled from the spec: decoding one content-type byte; unknown values
are tolerated at this level. -/
def ContentType.fromByte (b : Nat) : ContentType :=
  if b = 20 then .changeCipherSpec
  else if b = 21 then .alert
  else if b = 22 then .handshake
  else if b = 23 then .applicationData
  else .unknown b

/-- Modelled from the spec: the wire byte of a content type. -/
def ContentType.toByte : ContentType → Nat
  | .changeCipherSpec => 20
  | .alert => 21
  | .handshake => 22
  | .applicationData => 23
  | .unknown b => b

/-- Whether the content type is the catch-all unknown case
(`if let ContentType::Unknown(_) = typ`). -/
def ContentType.isUnknown : ContentType → Bool
  | .unknown _ => true
  | _ => false

/-- Modelled from the spec: `ContentType::read` — one byte, never fails on
content (unknown values accepted here). -/
def ContentType.read (r : List Nat) : Option (ContentType × List Nat) :=
  (u8Read r).map (fun p => (ContentType.fromByte p.1, p.2))

/-- Modelled from the spec: `ContentType::encode`. -/
def ContentType.encode (t : ContentType) : List Nat := encodeU8 t.toByte

/-- Modelled from the spec: the `ProtocolVersion` enum of `enums.rs` (not
among the sources): the known `0x03xx`-family versions plus a catch-all
unknown 16-bit value. -/
inductive ProtocolVersion
  | SSLv3
  | TLSv1_0
  | TLSv1_1
  | TLSv1_2
  | TLSv1_3
  | unknown (v : Nat)
  deriving DecidableEq

/-- Modelled from the spec: decoding a 16-bit protocol version value. -/
def ProtocolVersion.fromU16 (v : Nat) : ProtocolVersion :=
  if v = 0x0300 then .SSLv3
  else if v = 0x0301 then .TLSv1_0
  else if v = 0x0302 then .TLSv1_1
  else if v = 0x0303 then .TLSv1_2
  else if v = 0x0304 then .TLSv1_3
  else .unknown v

/-- Modelled from the spec: the 16-bit wire value of a protocol version. -/
def ProtocolVersion.toU16 : ProtocolVersion → Nat
  | .SSLv3 => 0x0300
  | .TLSv1_0 => 0x0301
  | .TLSv1_1 => 0x0302
  | .TLSv1_2 => 0x0303
  | .TLSv1_3 => 0x0304
  | .unknown v => v

/-- The record-header version check of `OpaqueMessage::read`: an `Unknown`
version whose high byte (`v & 0xff00`) is not `0x0300` is illegal; every
known variant passes. -/
def ProtocolVersion.headerIllegal : ProtocolVersion → Bool
  | .unknown v => v / 256 % 256 ≠ 3
  | _ => false

/-- Modelled from the spec: `ProtocolVersion::read` — two bytes big-endian,
unknown values tolerated at this level. -/
def ProtocolVersion.read (r : List Nat) : Option (ProtocolVersion × List Nat) :=
  (u16Read r).map (fun p => (ProtocolVersion.fromU16 p.1, p.2))

/-- Modelled from the spec: `ProtocolVersion::encode`. -/
def ProtocolVersion.encode (v : ProtocolVersion) : List Nat := encodeU16 v.toU16

/-! ## OpaqueMessage (`msgs/message.rs`) -/

/-- `MessageError` from `msgs/message.rs`. -/
inductive MessageError
  | tooShortForHeader
  | tooShortForLength
  | illegalLength
  | illegalContentType
  | illegalProtocolVersion
  deriving DecidableEq

/-- `OpaqueMessage` from `msgs/message.rs`; the payload buffer is the byte
list it holds (for `read`, the slice of the input at `[5, 5+len)`). -/
structure OpaqueMessage where
  typ : ContentType
  version : ProtocolVersion
  payload : List Nat
  deriving DecidableEq

/-- `OpaqueMessage::MAX_PAYLOAD`: 2^14 payload bytes plus a 2KB ciphertext
expansion allowance. -/
def OpaqueMessage.MAX_PAYLOAD : Nat := 16384 + 2048

/-- `OpaqueMessage::HEADER_SIZE`: content type, version and size. -/
def OpaqueMessage.HEADER_SIZE : Nat := 1 + 2 + 2

/-- `OpaqueMessage::MAX_WIRE_SIZE`. -/
def OpaqueMessage.MAX_WIRE_SIZE : Nat :=
  OpaqueMessage.MAX_PAYLOAD + OpaqueMessage.HEADER_SIZE

/-- `OpaqueMessage::read` from `msgs/message.rs`: parse the 5-byte record
header, then validate undersize, oversize, content type, version family and
remaining length, in source order. -/
def OpaqueMessage.read (buf : List Nat) : Except MessageError OpaqueMessage :=
  match ContentType.read buf with
  | none => .error .tooShortForHeader
  | some (typ, r1) =>
    match ProtocolVersion.read r1 with
    | none => .error .tooShortForHeader
    | some (version, r2) =>
      match u16Read r2 with
      | none => .error .tooShortForHeader
      | some (len, r3) =>
        if typ ≠ .applicationData ∧ len = 0 then .error .illegalLength
        else if OpaqueMessage.MAX_PAYLOAD ≤ len then .error .illegalLength
        else if typ.isUnknown then .error .illegalContentType
        else if version.headerIllegal then .error .illegalProtocolVersion
        else if r3.length < len then .error .tooShortForLength
        else .ok ⟨typ, version, r3.take len⟩

/-- `OpaqueMessage::len`: header size plus payload length. -/
def OpaqueMessage.len (m : OpaqueMessage) : Nat :=
  OpaqueMessage.HEADER_SIZE + m.payload.length

/-- `OpaqueMessage::encode`: type byte, version, payload length as `u16`
(a Rust `as u16` cast truncates, hence `% 65536`), then the payload. -/
def OpaqueMessage.encode (m : OpaqueMessage) : List Nat :=
  m.typ.encode ++ m.version.encode ++ encodeU16 (m.payload.length % 65536) ++ m.payload

/-! ## PlainMessage and typed messages -/

/-- `PlainMessage` from `msgs/message.rs`: a decrypted record with an owned
payload. -/
structure PlainMessage where
  typ : ContentType
  version : ProtocolVersion
  payload : List Nat
  deriving DecidableEq

/-- `OpaqueMessage::to_plain_message` (also `into_plain_message` of the
borrowed variant): copy the fields into an owned `PlainMessage`. -/
def OpaqueMessage.toPlainMessage (m : OpaqueMessage) : PlainMessage :=
  ⟨m.typ, m.version, m.payload⟩

/-- The `Error` enum of `error.rs` (not among the sources), restricted to
the variants the deframing core constructs. -/
inductive Error
  | CorruptMessage
  | CorruptMessagePayload (typ : ContentType)
  | PeerMisbehaved (s : String)
  | DecryptError
  | General (s : String)
  deriving DecidableEq

/-! ## Length-prefixed payload codecs (`msgs/base.rs`) -/

/-- Modelled from the spec: `u24::read`, three bytes big-endian. -/
def u24Read (r : List Nat) : Option (Nat × List Nat) :=
  match r with
  | a :: b :: c :: rest => some (a * 65536 + b * 256 + c, rest)
  | _ => none

/-- `PayloadU8::encode` from `msgs/base.rs`: the length as one byte (the Rust
`as u8` cast truncates; `encodeU8` carries the matching `% 256`), then the
raw bytes. -/
def PayloadU8.encode (p : List Nat) : List Nat := encodeU8 p.length ++ p

/-- `PayloadU8::read` from `msgs/base.rs`: 1-byte length, then a sub-reader
of exactly that many bytes. -/
def PayloadU8.read (r : List Nat) : Option (List Nat × List Nat) :=
  match u8Read r with
  | none => none
  | some (len, rest) => readerSub len rest

/-- `PayloadU16::encode` from `msgs/base.rs` (`encode_slice`): the length as
a big-endian `u16` (the `as u16` cast truncation is carried by the per-byte
`% 256` of `encodeU16`), then the raw bytes. -/
def PayloadU16.encode (p : List Nat) : List Nat := encodeU16 p.length ++ p

/-- `PayloadU16::read` from `msgs/base.rs`. -/
def PayloadU16.read (r : List Nat) : Option (List Nat × List Nat) :=
  match u16Read r with
  | none => none
  | some (len, rest) => readerSub len rest

/-- `PayloadU24::encode` from `msgs/base.rs`: the length as a 3-byte
big-endian `u24` (the `as u32` cast and the 3-byte split truncate; carried
by the per-byte `% 256` of `encodeU24`), then the raw bytes. -/
def PayloadU24.encode (p : List Nat) : List Nat := encodeU24 p.length ++ p

/-- `PayloadU24::read` from `msgs/base.rs`. -/
def PayloadU24.read (r : List Nat) : Option (List Nat × List Nat) :=
  match u24Read r with
  | none => none
  | some (len, rest) => readerSub len rest

/-! ## Typed messages (`MessagePayload`, `Message`) -/

/-- Modelled from the spec: `AlertMessagePayload` of `msgs/alert.rs` (not
among the sources): a level byte and a description byte. -/
structure AlertMessagePayload where
  level : Nat
  description : Nat
  deriving DecidableEq

/-- Modelled from the spec: `AlertMessagePayload::read` (`msgs/alert.rs` not
among the sources): reads the level and description bytes. -/
def AlertMessagePayload.read (r : List Nat) : Option (AlertMessagePayload × List Nat) :=
  match r with
  | l :: d :: rest => some (⟨l, d⟩, rest)
  | _ => none

/-- Modelled from the spec: `HandshakeMessagePayload` of `msgs/handshake.rs`
(not among the sources); the field grammar beyond the length header is out
of the core's scope, so the body is kept as an opaque blob. -/
structure HandshakeMessagePayload where
  typ : Nat
  body : List Nat
  deriving DecidableEq

/-- Modelled from the spec: `HandshakeMessagePayload::read_version`
(`msgs/handshake.rs` not among the sources): a 1-byte handshake type, a
3-byte big-endian length, then exactly that many body bytes. -/
def HandshakeMessagePayload.readVersion (r : List Nat) (_vers : ProtocolVersion) :
    Option (HandshakeMessagePayload × List Nat) :=
  match u8Read r with
  | none => none
  | some (t, r1) =>
    match u24Read r1 with
    | none => none
    | some (bodyLen, r2) =>
      match readerSub bodyLen r2 with
      | none => none
      | some (body, r3) => some (⟨t, body⟩, r3)

/-- Modelled from the spec: `ChangeCipherSpecPayload` of `msgs/ccs.rs` (not
among the sources). -/
structure ChangeCipherSpecPayload where
  deriving DecidableEq

/-- Modelled from the spec: `ChangeCipherSpecPayload::read` (`msgs/ccs.rs`
not among the sources): consumes the single body byte. -/
def ChangeCipherSpecPayload.read (r : List Nat) :
    Option (ChangeCipherSpecPayload × List Nat) :=
  match r with
  | _ :: rest => some (⟨⟩, rest)
  | _ => none

/-- `MessagePayload` from `msgs/message.rs`. -/
inductive MessagePayload
  | alert (a : AlertMessagePayload)
  | handshake (parsed : HandshakeMessagePayload) (encoded : List Nat)
  | changeCipherSpec (c : ChangeCipherSpecPayload)
  | applicationData (p : List Nat)
  deriving DecidableEq

/-- The `.filter(|_| !r.any_left())` step of `MessagePayload::new`: keep a
parse only if it consumed the entire reader. -/
def consumedAll {α : Type} (res : Option (α × List Nat)) : Option α :=
  match res with
  | some (a, rest) => if rest = [] then some a else none
  | none => none

/-- `Option::ok_or`. -/
def okOr {α : Type} (o : Option α) (e : Error) : Except Error α :=
  match o with
  | some a => .ok a
  | none => .error e

/-- `MessagePayload::new` from `msgs/message.rs`: application-data is
accepted unconditionally as raw bytes; alert / handshake / change-cipher-spec
are parsed structurally and must consume the whole payload; anything else is
a payload corruption error carrying the content type. -/
def MessagePayload.new (typ : ContentType) (vers : ProtocolVersion) (payload : List Nat) :
    Except Error MessagePayload :=
  match typ with
  | .applicationData => .ok (.applicationData payload)
  | .alert =>
    okOr ((consumedAll (AlertMessagePayload.read payload)).map .alert)
      (.CorruptMessagePayload .alert)
  | .handshake =>
    okOr ((consumedAll (HandshakeMessagePayload.readVersion payload vers)).map
        (fun parsed => .handshake parsed payload))
      (.CorruptMessagePayload .handshake)
  | .changeCipherSpec =>
    okOr ((consumedAll (ChangeCipherSpecPayload.read payload)).map .changeCipherSpec)
      (.CorruptMessagePayload .changeCipherSpec)
  | .unknown n => okOr none (.CorruptMessagePayload (.unknown n))

/-- `Message` from `msgs/message.rs`. -/
structure Message where
  version : ProtocolVersion
  payload : MessagePayload
  deriving DecidableEq

/-- `TryFrom<PlainMessage> for Message` from `msgs/message.rs`. -/
def Message.tryFrom (plain : PlainMessage) : Except Error Message :=
  match MessagePayload.new plain.typ plain.version plain.payload with
  | .ok p => .ok ⟨plain.version, p⟩
  | .error e => .error e

/-! ## Deframer (`msgs/deframer.rs`) -/

/-- The handshake header size of `msgs/deframer.rs` (`HEADER_SIZE`): a type
byte plus a 3-byte length. -/
def hsHeaderSize : Nat := 1 + 3

/-- `MAX_HANDSHAKE_SIZE` from `msgs/deframer.rs`: handshake messages above
64KB are rejected as a denial-of-service guard. -/
def MAX_HANDSHAKE_SIZE : Nat := 0xffff

/-- `READ_SIZE` from `msgs/deframer.rs`. -/
def READ_SIZE : Nat := 4096

/-- `INTERLEAVED_ERROR` from `msgs/deframer.rs`. -/
def interleavedError : String := ""

/-- `payload_size` from `msgs/deframer.rs`: the expected total length of an
accumulated handshake payload, from its 4-byte header. -/
def payload_size (buf : List Nat) : Except Error (Option Nat) :=
  if buf.length < hsHeaderSize then .ok none
  else
    match decodeU24 ((buf.take hsHeaderSize).drop 1) with
    | some len =>
      if MAX_HANDSHAKE_SIZE < len then .error (.CorruptMessagePayload .handshake)
      else .ok (some (hsHeaderSize + len))
    | none => .ok none

/-- A `Range<usize>` as used by `HandshakePayloadMeta`. -/
structure Span where
  start : Nat
  stop : Nat
  deriving DecidableEq

/-- `Range::len`. -/
def Span.size (s : Span) : Nat := s.stop - s.start

/-- `HandshakePayloadMeta` from `msgs/deframer.rs`. -/
structure HandshakePayloadMeta where
  message : Span
  payload : Span
  version : ProtocolVersion
  expectedLen : Option Nat
  quic : Bool
  deriving DecidableEq

/-- `MessageDeframer` state from `msgs/deframer.rs`. -/
structure MessageDeframer where
  desynced : Bool
  buf : List Nat
  joiningHs : Option HandshakePayloadMeta
  used : Nat
  discard : Nat
  deriving DecidableEq

/-- `MessageDeframer::default()`. -/
def MessageDeframer.empty : MessageDeframer := ⟨false, [], none, 0, 0⟩

/-- Modelled from the spec: the outcome of the record-protection
collaborator's `decrypt_incoming` (`record_layer.rs` not among the sources):
decrypted plaintext, explicit trial-decryption rejection, or a hard failure. -/
inductive DecryptOutcome
  | decrypted (plaintext : PlainMessage)
  | rejected
  | failed (e : Error)

/-- `Deframed` from `msgs/deframer.rs`. -/
structure Deframed where
  wantCloseBeforeDecrypt : Bool
  aligned : Bool
  trialDecryptionFinished : Bool
  message : PlainMessage

/-- The result of a `pop` call; `outOfFuel` marks that the model's step
budget ran out while the source loop was still running. -/
inductive PopResult
  | res (r : Except Error (Option Deframed)) (st : MessageDeframer)
  | outOfFuel (st : MessageDeframer)

/-- `Vec::copy_within(srcStart..srcStop, dest)` (memmove semantics: the
source segment is read out before being written). -/
def copyWithin (l : List Nat) (srcStart srcStop dest : Nat) : List Nat :=
  let seg := (l.drop srcStart).take (srcStop - srcStart)
  l.take dest ++ seg ++ l.drop (dest + seg.length)

/-- The code after the `loop` of `MessageDeframer::pop` (extraction of a
completed handshake payload once `expected_len` is satisfied). -/
def MessageDeframer.finishJoin (st : MessageDeframer) (expectedLen : Nat) : PopResult :=
  match st.joiningHs with
  | none => .res (.ok none) st
  | some meta =>
    let message : PlainMessage :=
      ⟨.handshake, meta.version, (st.buf.drop meta.payload.start).take expectedLen⟩
    if expectedLen < meta.payload.size then
      let meta1 := {meta with payload := ⟨meta.payload.start + expectedLen, meta.payload.stop⟩}
      match payload_size ((st.buf.drop meta1.payload.start).take meta1.payload.size) with
      | .error e => .res (.error e) {st with joiningHs := some meta1}
      | .ok el =>
        let meta2 := {meta1 with expectedLen := el}
        .res (.ok (some ⟨false, false, true, message⟩)) {st with joiningHs := some meta2}
    else
      .res (.ok (some ⟨false, true, true, message⟩))
        {st with joiningHs := none, discard := meta.message.stop}

/-- The tail of the handshake-joining arm of the `pop` loop (source lines
matching `match meta.expected_len { Some(len) if len <= meta.payload.len()
=> break len, _ => ... }`). -/
def popAfterJoin (recur : MessageDeframer → PopResult) (st : MessageDeframer)
    (meta : HandshakePayloadMeta) : PopResult :=
  match meta.expectedLen with
  | some len =>
    if len ≤ meta.payload.size then st.finishJoin len
    else if meta.message.stop < st.used then recur st else .res (.ok none) st
  | none =>
    if meta.message.stop < st.used then recur st else .res (.ok none) st

/-- The handshake-joining arm of the `pop` loop: fold the decrypted record's
payload into the current accumulation (creating one if absent), deriving the
expected total length from the 4-byte handshake header when still unknown. -/
def popJoinHs (recur : MessageDeframer → PopResult) (st : MessageDeframer)
    (start rEnd : Nat) (msg : PlainMessage) : PopResult :=
  let payloadStart := start + OpaqueMessage.HEADER_SIZE
  let pLen := msg.payload.length
  match st.joiningHs with
  | some meta =>
    let buf1 := copyWithin st.buf payloadStart (payloadStart + pLen) meta.payload.stop
    let meta1 := {meta with message := ⟨meta.message.start, rEnd⟩,
                            payload := ⟨meta.payload.start, meta.payload.stop + pLen⟩}
    match meta1.expectedLen with
    | none =>
      match payload_size ((buf1.drop meta1.payload.start).take meta1.payload.size) with
      | .error e => .res (.error e) {st with buf := buf1, joiningHs := some meta1}
      | .ok el =>
        let meta2 := {meta1 with expectedLen := el}
        popAfterJoin recur {st with buf := buf1, joiningHs := some meta2} meta2
    | some _ => popAfterJoin recur {st with buf := buf1, joiningHs := some meta1} meta1
  | none =>
    match payload_size ((st.buf.drop payloadStart).take pLen) with
    | .error e => .res (.error e) st
    | .ok el =>
      let meta2 : HandshakePayloadMeta :=
        ⟨⟨0, rEnd⟩, ⟨payloadStart, payloadStart + pLen⟩, msg.version, el, false⟩
      popAfterJoin recur {st with joiningHs := some meta2} meta2

/-- One record-scanning pass of the `pop` loop, from parsing a record at the
scan offset through the change-cipher-spec shortcut, decryption, the
interleaving checks and the handshake-joining arm. `recur` is the loop's
`continue`. -/
def popScan (d : OpaqueMessage → DecryptOutcome) (recur : MessageDeframer → PopResult)
    (st : MessageDeframer) (start : Nat) : PopResult :=
  match OpaqueMessage.read ((st.buf.drop start).take (st.used - start)) with
  | .error .tooShortForHeader => .res (.ok none) st
  | .error .tooShortForLength => .res (.ok none) st
  | .error _ => .res (.error .CorruptMessage) {st with desynced := true}
  | .ok m =>
    let rEnd := start + m.len
    if m.typ = .changeCipherSpec ∧ st.joiningHs = none then
      .res (.ok (some ⟨false, true, false, m.toPlainMessage⟩)) {st with discard := rEnd}
    else
      match d m with
      | .decrypted msg =>
        if st.joiningHs.isSome ∧ msg.typ ≠ .handshake then
          .res (.error (.PeerMisbehaved interleavedError)) {st with desynced := true}
        else if msg.typ ≠ .handshake then
          .res (.ok (some ⟨false, true, false, msg⟩)) {st with discard := rEnd}
        else
          popJoinHs recur st start rEnd msg
      | .rejected =>
        if st.joiningHs.isSome then
          .res (.error (.PeerMisbehaved interleavedError)) {st with desynced := true}
        else recur {st with discard := rEnd}
      | .failed e => .res (.error e) st

/-- One iteration of the `pop` loop: compute the scan start offset (or jump
straight to extraction when a joined payload is already satisfied, or report
nothing-available for a starved QUIC accumulation), then scan. -/
def popStep (d : OpaqueMessage → DecryptOutcome) (recur : MessageDeframer → PopResult)
    (st : MessageDeframer) : PopResult :=
  match st.joiningHs with
  | some meta =>
    match meta.expectedLen with
    | some len =>
      if len ≤ meta.payload.size then st.finishJoin len
      else if meta.quic then .res (.ok none) st
      else popScan d recur st meta.message.stop
    | none =>
      if meta.quic then .res (.ok none) st
      else popScan d recur st meta.message.stop
  | none => popScan d recur st 0

/-- The `pop` loop, driven by fuel: each `continue` of the source loop
consumes one unit. -/
def popLoop (d : OpaqueMessage → DecryptOutcome) : Nat → MessageDeframer → PopResult
  | 0, st => .outOfFuel st
  | fuel + 1, st => popStep d (popLoop d fuel) st

/-- `MessageDeframer::pop` from `msgs/deframer.rs`: fail permanently once
desynchronized, report nothing-available on an empty buffer, otherwise run
the record loop. -/
def MessageDeframer.pop (st : MessageDeframer) (d : OpaqueMessage → DecryptOutcome)
    (fuel : Nat) : PopResult :=
  if st.desynced then .res (.error .CorruptMessage) st
  else if st.used = 0 then .res (.ok none) st
  else popLoop d fuel st

/-- The buffer ceiling of `MessageDeframer::prepare_read` (`allow_max`): the
64KB handshake limit while an accumulation is active, the maximum record
wire size otherwise. -/
def MessageDeframer.allowMax (st : MessageDeframer) : Nat :=
  match st.joiningHs with
  | some _ => MAX_HANDSHAKE_SIZE
  | none => OpaqueMessage.MAX_WIRE_SIZE

/-- `MessageDeframer::prepare_read` from `msgs/deframer.rs`: fail once the
in-use count has reached the allowed ceiling, else resize the buffer for a
4KB read capped at the ceiling (shrinking it back when it exceeds the
currently allowed ceiling). -/
def MessageDeframer.prepare_read (st : MessageDeframer) : Except String MessageDeframer :=
  let allow_max := st.allowMax
  if allow_max ≤ st.used then .error "message buffer full"
  else
    let need_capacity := min allow_max (st.used + READ_SIZE)
    if st.buf.length < need_capacity then
      .ok {st with buf := st.buf ++ List.replicate (need_capacity - st.buf.length) 0}
    else if allow_max < st.buf.length then
      .ok {st with buf := st.buf.take need_capacity}
    else .ok st

/-- `MessageDeframer::read` from `msgs/deframer.rs`, with the byte source
modelled as the list of bytes it has available: after `prepare_read`, the
source fills as much of `buf[used..]` as it can. -/
def MessageDeframer.read (st : MessageDeframer) (src : List Nat) :
    Except String (Nat × MessageDeframer) :=
  match st.prepare_read with
  | .error e => .error e
  | .ok st1 =>
    let n := min src.length (st1.buf.length - st1.used)
    let buf1 := st1.buf.take st1.used ++ src.take n ++ st1.buf.drop (st1.used + n)
    .ok (n, {st1 with buf := buf1, used := st1.used + n})

/-! ## Helper lemmas -/

theorem opaqueRead_short (buf : List Nat) (h : buf.length < 5) :
    OpaqueMessage.read buf = .error .tooShortForHeader := by
  match buf with
  | [] => rfl
  | [_] => rfl
  | [_, _] => rfl
  | [_, _, _] => rfl
  | [_, _, _, _] => rfl
  | _ :: _ :: _ :: _ :: _ :: _ =>
    simp only [List.length_cons] at h
    omega

theorem opaqueRead_cons (b0 b1 b2 b3 b4 : Nat) (rest : List Nat) :
    OpaqueMessage.read (b0 :: b1 :: b2 :: b3 :: b4 :: rest) =
      (if ContentType.fromByte b0 ≠ .applicationData ∧ b3 * 256 + b4 = 0 then
        .error .illegalLength
      else if OpaqueMessage.MAX_PAYLOAD ≤ b3 * 256 + b4 then .error .illegalLength
      else if (ContentType.fromByte b0).isUnknown then .error .illegalContentType
      else if (ProtocolVersion.fromU16 (b1 * 256 + b2)).headerIllegal then
        .error .illegalProtocolVersion
      else if rest.length < b3 * 256 + b4 then .error .tooShortForLength
      else .ok ⟨ContentType.fromByte b0, ProtocolVersion.fromU16 (b1 * 256 + b2),
        rest.take (b3 * 256 + b4)⟩) := rfl

theorem toByte_fromByte (b : Nat) : (ContentType.fromByte b).toByte = b := by
  unfold ContentType.fromByte
  split_ifs <;> simp_all [ContentType.toByte]

theorem toU16_fromU16 (v : Nat) : (ProtocolVersion.fromU16 v).toU16 = v := by
  unfold ProtocolVersion.fromU16
  split_ifs <;> simp_all [ProtocolVersion.toU16]

theorem headerIllegal_fromU16_iff (b1 b2 : Nat) (h1 : b1 < 256) (h2 : b2 < 256) :
    (ProtocolVersion.fromU16 (b1 * 256 + b2)).headerIllegal = true ↔ b1 ≠ 3 := by
  unfold ProtocolVersion.fromU16
  split_ifs with hv1 hv2 hv3 hv4 hv5 <;>
    simp only [ProtocolVersion.headerIllegal, Bool.false_eq_true, false_iff,
      decide_eq_true_eq, ne_eq, Decidable.not_not] <;>
    omega

/-! ## Claim theorems: OpaqueMessage -/

/-- Claim C1: `OpaqueMessage::read` validates in source order — header too
short; zero length with non-application-data type; length not below the
maximum payload ceiling; unrecognized content type; version family high byte
not 0x03; fewer than `length` payload bytes remaining (retry-later) — and on
success the payload is the input slice at `[5, 5+length)`. -/
theorem opaqueMessage_read_validation_order :
    (∀ buf : List Nat, buf.length < 5 →
      OpaqueMessage.read buf = .error .tooShortForHeader) ∧
    (∀ b0 b1 b2 b3 b4 : Nat, ∀ rest : List Nat,
      b1 < 256 → b2 < 256 → b4 < 256 →
      OpaqueMessage.read (b0 :: b1 :: b2 :: b3 :: b4 :: rest) =
        (if ContentType.fromByte b0 ≠ .applicationData ∧ b3 * 256 + b4 = 0 then
          .error .illegalLength
        else if 16384 + 2048 ≤ b3 * 256 + b4 then .error .illegalLength
        else if (ContentType.fromByte b0).isUnknown then .error .illegalContentType
        else if b1 ≠ 3 then .error .illegalProtocolVersion
        else if rest.length < b3 * 256 + b4 then .error .tooShortForLength
        else .ok ⟨ContentType.fromByte b0, ProtocolVersion.fromU16 (b1 * 256 + b2),
          rest.take (b3 * 256 + b4)⟩)) := by
  refine ⟨opaqueRead_short, fun b0 b1 b2 b3 b4 rest h1 h2 h4 => ?_⟩
  rw [opaqueRead_cons]
  have hiff := headerIllegal_fromU16_iff b1 b2 h1 h2
  unfold OpaqueMessage.MAX_PAYLOAD
  split_ifs <;> simp_all

/-- Witness for C1 at a concrete handshake record. -/
theorem opaqueMessage_read_validation_order_witness :
    OpaqueMessage.read [22, 3, 3, 0, 1, 7] =
      .ok ⟨.handshake, .TLSv1_2, [7]⟩ := by
  have h := opaqueMessage_read_validation_order.2 22 3 3 0 1 [7]
    (by omega) (by omega) (by omega)
  simpa [ContentType.fromByte, ContentType.isUnknown, ProtocolVersion.fromU16] using h

/-- Claim C7: for every byte slice on which `OpaqueMessage::read` succeeds,
`encode` of the resulting message reproduces exactly the consumed prefix
(header plus payload) of the input, byte for byte. -/
theorem opaqueMessage_encode_read_roundtrip (buf : List Nat)
    (hb : ∀ b ∈ buf, b < 256) (m : OpaqueMessage)
    (h : OpaqueMessage.read buf = .ok m) :
    m.encode = buf.take (OpaqueMessage.HEADER_SIZE + m.payload.length) := by
  match buf, hb, h with
  | [], _, h => exact Except.noConfusion h
  | [_], _, h => exact Except.noConfusion h
  | [_, _], _, h => exact Except.noConfusion h
  | [_, _, _], _, h => exact Except.noConfusion h
  | [_, _, _, _], _, h => exact Except.noConfusion h
  | b0 :: b1 :: b2 :: b3 :: b4 :: rest, hb, h =>
    rw [opaqueRead_cons] at h
    have hb0 : b0 < 256 := hb b0 (by simp)
    have hb1 : b1 < 256 := hb b1 (by simp)
    have hb2 : b2 < 256 := hb b2 (by simp)
    have hb3 : b3 < 256 := hb b3 (by simp)
    have hb4 : b4 < 256 := hb b4 (by simp)
    split_ifs at h with hc1 hc2 hc3 hc4 hc5
    case _ =>
      cases h
      have hlen : (List.take (b3 * 256 + b4) rest).length = b3 * 256 + b4 := by
        simp only [List.length_take]
        omega
      simp only [OpaqueMessage.encode, ContentType.encode, ProtocolVersion.encode,
        encodeU8, encodeU16, toByte_fromByte, toU16_fromU16, hlen,
        OpaqueMessage.HEADER_SIZE]
      unfold OpaqueMessage.MAX_PAYLOAD at hc2
      have e0 : b0 % 256 = b0 := Nat.mod_eq_of_lt hb0
      have e1 : (b1 * 256 + b2) / 256 % 256 = b1 := by omega
      have e2 : (b1 * 256 + b2) % 256 = b2 := by omega
      have e3 : (b3 * 256 + b4) % 65536 = b3 * 256 + b4 := by omega
      have e4 : (b3 * 256 + b4) / 256 % 256 = b3 := by omega
      have e5 : (b3 * 256 + b4) % 256 = b4 := by omega
      have htake : List.take (b3 * 256 + b4 + 5) (b0 :: b1 :: b2 :: b3 :: b4 :: rest) =
          b0 :: b1 :: b2 :: b3 :: b4 :: List.take (b3 * 256 + b4) rest := rfl
      rw [show 1 + 2 + 2 + (b3 * 256 + b4) = b3 * 256 + b4 + 5 by omega, htake]
      simp [e0, e1, e2, e3, e4, e5]

/-- Witness for C7 at a concrete alert record. -/
theorem opaqueMessage_encode_read_roundtrip_witness :
    (⟨.alert, .TLSv1_2, [1, 80]⟩ : OpaqueMessage).encode = [21, 3, 3, 0, 2, 1, 80] := by
  have h := opaqueMessage_encode_read_roundtrip [21, 3, 3, 0, 2, 1, 80]
    (by decide) ⟨.alert, .TLSv1_2, [1, 80]⟩ rfl
  simpa using h

/-- Counterexample to C8: a record declaring a payload length of exactly
16384 + 2048 bytes, followed by that many payload bytes, is rejected as
"illegal length" — the maximum payload value itself is not accepted
(`len >= MAX_PAYLOAD` fails). -/
theorem opaqueMessage_read_rejects_exact_max_payload :
    OpaqueMessage.read (23 :: 3 :: 3 :: 72 :: 0 :: List.replicate 18432 0) =
      .error .illegalLength := by
  rw [opaqueRead_cons]
  norm_num [ContentType.fromByte, OpaqueMessage.MAX_PAYLOAD]

/-- Claim C8 (amended): for a record header with recognized content type,
version `0x0303`, nonzero declared length (or application-data type), and at
least the declared number of payload bytes following, `OpaqueMessage::read`
accepts every declared length strictly below 16384 + 2048 (so up to and
including 18431), and rejects any length of 16384 + 2048 or more as
"illegal length". -/
theorem opaqueMessage_read_payload_ceiling (b0 b3 b4 : Nat) (rest : List Nat)
    (htyp : (ContentType.fromByte b0).isUnknown = false)
    (hnz : ContentType.fromByte b0 = .applicationData ∨ b3 * 256 + b4 ≠ 0)
    (hrest : b3 * 256 + b4 ≤ rest.length) :
    (b3 * 256 + b4 < 16384 + 2048 →
      OpaqueMessage.read (b0 :: 3 :: 3 :: b3 :: b4 :: rest) =
        .ok ⟨ContentType.fromByte b0, .TLSv1_2, rest.take (b3 * 256 + b4)⟩) ∧
    (16384 + 2048 ≤ b3 * 256 + b4 →
      OpaqueMessage.read (b0 :: 3 :: 3 :: b3 :: b4 :: rest) =
        .error .illegalLength) := by
  rw [opaqueRead_cons]
  have hver : ProtocolVersion.fromU16 (3 * 256 + 3) = .TLSv1_2 := rfl
  rw [hver]
  constructor
  · intro hlt
    rw [if_neg (by tauto), if_neg (by unfold OpaqueMessage.MAX_PAYLOAD; omega),
      if_neg (by simp [htyp]), if_neg (by simp [ProtocolVersion.headerIllegal]),
      if_neg (by omega)]
  · intro hge
    rw [if_neg (by tauto), if_pos (by unfold OpaqueMessage.MAX_PAYLOAD; omega)]

/-- Witness for the amended C8 at the largest accepted length, 18431. -/
theorem opaqueMessage_read_payload_ceiling_witness :
    OpaqueMessage.read (23 :: 3 :: 3 :: 71 :: 255 :: List.replicate 18431 9) =
      .ok ⟨ContentType.fromByte 23, .TLSv1_2,
        (List.replicate 18431 9).take (71 * 256 + 255)⟩ :=
  (opaqueMessage_read_payload_ceiling 23 71 255 (List.replicate 18431 9)
    (by decide) (by norm_num [ContentType.fromByte])
    (by rw [List.length_replicate])).1 (by norm_num)

/-! ## Claim theorems: typed messages -/

/-- Claim C4: converting a `PlainMessage` to a typed `Message` accepts
application-data unconditionally with the raw bytes unchanged, and accepts
alert / handshake / change-cipher-spec exactly when the structural parse
consumes the entire payload with nothing left over, failing otherwise with a
payload-corruption error carrying the offending content type. -/
theorem message_tryFrom_dispatch (vers : ProtocolVersion) (p : List Nat) :
    (Message.tryFrom ⟨.applicationData, vers, p⟩ = .ok ⟨vers, .applicationData p⟩) ∧
    (Message.tryFrom ⟨.alert, vers, p⟩ =
      match AlertMessagePayload.read p with
      | some (a, rest) =>
        if rest = [] then .ok ⟨vers, .alert a⟩
        else .error (.CorruptMessagePayload .alert)
      | none => .error (.CorruptMessagePayload .alert)) ∧
    (Message.tryFrom ⟨.handshake, vers, p⟩ =
      match HandshakeMessagePayload.readVersion p vers with
      | some (hs, rest) =>
        if rest = [] then .ok ⟨vers, .handshake hs p⟩
        else .error (.CorruptMessagePayload .handshake)
      | none => .error (.CorruptMessagePayload .handshake)) ∧
    (Message.tryFrom ⟨.changeCipherSpec, vers, p⟩ =
      match ChangeCipherSpecPayload.read p with
      | some (c, rest) =>
        if rest = [] then .ok ⟨vers, .changeCipherSpec c⟩
        else .error (.CorruptMessagePayload .changeCipherSpec)
      | none => .error (.CorruptMessagePayload .changeCipherSpec)) := by
  refine ⟨rfl, ?_, ?_, ?_⟩
  · cases hA : AlertMessagePayload.read p with
    | none => simp [Message.tryFrom, MessagePayload.new, consumedAll, okOr, hA]
    | some pr =>
      obtain ⟨a, rest⟩ := pr
      by_cases hr : rest = [] <;>
        simp [Message.tryFrom, MessagePayload.new, consumedAll, okOr, hA, hr]
  · cases hH : HandshakeMessagePayload.readVersion p vers with
    | none => simp [Message.tryFrom, MessagePayload.new, consumedAll, okOr, hH]
    | some pr =>
      obtain ⟨hs, rest⟩ := pr
      by_cases hr : rest = [] <;>
        simp [Message.tryFrom, MessagePayload.new, consumedAll, okOr, hH, hr]
  · cases hC : ChangeCipherSpecPayload.read p with
    | none => simp [Message.tryFrom, MessagePayload.new, consumedAll, okOr, hC]
    | some pr =>
      obtain ⟨c, rest⟩ := pr
      by_cases hr : rest = [] <;>
        simp [Message.tryFrom, MessagePayload.new, consumedAll, okOr, hC, hr]

/-- Claim C10: a `PlainMessage` whose content type is an unknown value never
converts to a typed `Message`; the conversion always fails with the
payload-corruption error carrying that content type. -/
theorem message_tryFrom_unknown_content_type (n : Nat) (vers : ProtocolVersion)
    (p : List Nat) :
    Message.tryFrom ⟨.unknown n, vers, p⟩ =
      .error (.CorruptMessagePayload (.unknown n)) := rfl

/-! ## Claim theorems: deframer helpers -/

/-- Claim C5: `payload_size` returns "not yet known" exactly when fewer than
the 4 handshake-header bytes are available, fails with the fatal
handshake-payload corruption error exactly when the declared 3-byte
big-endian length exceeds 65535 (`MAX_HANDSHAKE_SIZE`), and otherwise
returns 4 plus the declared length. -/
theorem payload_size_characterization :
    (∀ buf : List Nat, buf.length < 4 → payload_size buf = .ok none) ∧
    (∀ t a b c : Nat, ∀ rest : List Nat,
      (65535 < a * 65536 + b * 256 + c →
        payload_size (t :: a :: b :: c :: rest) =
          .error (.CorruptMessagePayload .handshake)) ∧
      (a * 65536 + b * 256 + c ≤ 65535 →
        payload_size (t :: a :: b :: c :: rest) =
          .ok (some (4 + (a * 65536 + b * 256 + c))))) := by
  constructor
  · intro buf h
    unfold payload_size
    rw [if_pos (by unfold hsHeaderSize; omega)]
  · intro t a b c rest
    have hne : ¬ ((t :: a :: b :: c :: rest).length < hsHeaderSize) := by
      simp [hsHeaderSize]
    constructor
    · intro h
      unfold payload_size
      rw [if_neg hne]
      simp only [hsHeaderSize, List.take, List.drop, decodeU24]
      rw [if_pos (by unfold MAX_HANDSHAKE_SIZE; omega)]
    · intro h
      unfold payload_size
      rw [if_neg hne]
      simp only [hsHeaderSize, List.take, List.drop, decodeU24]
      rw [if_neg (by unfold MAX_HANDSHAKE_SIZE; omega)]

/-- Witness for C5: a small in-range header, an oversized one, and a
too-short prefix. -/
theorem payload_size_characterization_witness :
    payload_size [1, 0, 0, 5, 9, 9] = .ok (some (4 + (0 * 65536 + 0 * 256 + 5))) ∧
    payload_size [1, 255, 255, 255] = .error (.CorruptMessagePayload .handshake) ∧
    payload_size [1, 0, 0] = .ok none :=
  ⟨(payload_size_characterization.2 1 0 0 5 [9, 9]).2 (by norm_num),
   (payload_size_characterization.2 1 255 255 255 []).1 (by norm_num),
   payload_size_characterization.1 [1, 0, 0] (by norm_num)⟩

/-! ## Claim theorems: length-prefixed payload codecs -/

/-- Counterexample to C9: encoding a 256-byte blob with the 1-byte-prefix
codec writes a length prefix of 0 (the `as u8` cast truncates), not the
256 bytes that actually follow. -/
theorem payloadU8_encode_truncates_oversized :
    PayloadU8.encode (List.replicate 256 1) = 0 :: List.replicate 256 1 ∧
      (0 : Nat) ≠ (List.replicate 256 1).length := by
  constructor
  · rw [PayloadU8.encode, List.length_replicate]
    rfl
  · rw [List.length_replicate]
    omega

/-- Claim C9 (amended): for each of the three length-prefixed codecs, the
encoded length prefix is the big-endian digits of the exact byte count that
follows whenever the blob length is representable in the prefix width
(255 / 65535 / 16777215 at most; longer blobs get the count reduced modulo
the prefix range), and decoding fails whenever the declared length exceeds
the bytes remaining in the reader. -/
theorem payload_codec_prefix_and_bounds :
    (∀ p : List Nat, p.length ≤ 255 → PayloadU8.encode p = p.length :: p) ∧
    (∀ p : List Nat, p.length ≤ 65535 →
      PayloadU16.encode p = p.length / 256 :: p.length % 256 :: p) ∧
    (∀ p : List Nat, p.length ≤ 16777215 →
      PayloadU24.encode p =
        p.length / 65536 :: p.length / 256 % 256 :: p.length % 256 :: p) ∧
    (∀ len : Nat, ∀ rest : List Nat, rest.length < len →
      PayloadU8.read (len :: rest) = none) ∧
    (∀ a b : Nat, ∀ rest : List Nat, rest.length < a * 256 + b →
      PayloadU16.read (a :: b :: rest) = none) ∧
    (∀ a b c : Nat, ∀ rest : List Nat, rest.length < a * 65536 + b * 256 + c →
      PayloadU24.read (a :: b :: c :: rest) = none) := by
  refine ⟨fun p h => ?_, fun p h => ?_, fun p h => ?_,
    fun len rest h => ?_, fun a b rest h => ?_, fun a b c rest h => ?_⟩
  · simp [PayloadU8.encode, encodeU8, Nat.mod_eq_of_lt (by omega : p.length < 256)]
  · have h1 : p.length / 256 % 256 = p.length / 256 := Nat.mod_eq_of_lt (by omega)
    simp [PayloadU16.encode, encodeU16, h1]
  · have h1 : p.length / 65536 % 256 = p.length / 65536 := Nat.mod_eq_of_lt (by omega)
    simp [PayloadU24.encode, encodeU24, h1]
  · simp only [PayloadU8.read, u8Read, readerSub]
    rw [if_neg (by omega)]
  · simp only [PayloadU16.read, u16Read, readerSub]
    rw [if_neg (by omega)]
  · simp only [PayloadU24.read, u24Read, readerSub]
    rw [if_neg (by omega)]

/-- Witness for the amended C9: in-range encodes for all three widths and a
declared length exceeding the remaining bytes for all three widths. -/
theorem payload_codec_prefix_and_bounds_witness :
    PayloadU8.encode [7, 8] = [7, 8].length :: [7, 8] ∧
    PayloadU16.encode [7] = [7].length / 256 :: [7].length % 256 :: [7] ∧
    PayloadU24.encode [9] = [9].length / 65536 :: [9].length / 256 % 256 ::
      [9].length % 256 :: [9] ∧
    PayloadU8.read [3, 1] = none ∧
    PayloadU16.read [0, 2, 5] = none ∧
    PayloadU24.read [0, 0, 2, 5] = none :=
  ⟨payload_codec_prefix_and_bounds.1 [7, 8] (by norm_num),
   payload_codec_prefix_and_bounds.2.1 [7] (by norm_num),
   payload_codec_prefix_and_bounds.2.2.1 [9] (by norm_num),
   payload_codec_prefix_and_bounds.2.2.2.1 3 [1] (by norm_num),
   payload_codec_prefix_and_bounds.2.2.2.2.1 0 2 [5] (by norm_num),
   payload_codec_prefix_and_bounds.2.2.2.2.2 0 0 2 [5] (by norm_num)⟩

theorem listFill_length (buf src : List Nat) (used n : Nat)
    (h1 : used + n ≤ buf.length) (h2 : n ≤ src.length) :
    (buf.take used ++ src.take n ++ buf.drop (used + n)).length = buf.length := by
  simp only [List.length_append, List.length_take, List.length_drop]
  omega

theorem prepare_read_ok (st : MessageDeframer) (h : st.used < st.allowMax) :
    ∃ st1, st.prepare_read = .ok st1 ∧ st1.used = st.used ∧
      st1.desynced = st.desynced ∧ st1.joiningHs = st.joiningHs ∧
      st1.discard = st.discard ∧
      st1.buf.length =
        (if st.buf.length < min st.allowMax (st.used + READ_SIZE) then
          min st.allowMax (st.used + READ_SIZE)
        else if st.allowMax < st.buf.length then
          min st.allowMax (st.used + READ_SIZE)
        else st.buf.length) ∧
      min st.allowMax (st.used + READ_SIZE) ≤ st1.buf.length := by
  unfold MessageDeframer.prepare_read
  rw [if_neg (by omega)]
  by_cases hg : st.buf.length < min st.allowMax (st.used + READ_SIZE)
  · rw [if_pos hg]
    refine ⟨_, rfl, rfl, rfl, rfl, rfl, ?_, ?_⟩
    · rw [if_pos hg]
      simp only [List.length_append, List.length_replicate]
      omega
    · simp only [List.length_append, List.length_replicate]
      omega
  · rw [if_neg hg]
    by_cases hs : st.allowMax < st.buf.length
    · rw [if_pos hs]
      refine ⟨_, rfl, rfl, rfl, rfl, rfl, ?_, ?_⟩
      · rw [if_neg hg, if_pos hs]
        simp only [List.length_take]
        omega
      · simp only [List.length_take]
        omega
    · rw [if_neg hs]
      exact ⟨_, rfl, rfl, rfl, rfl, rfl, by rw [if_neg hg, if_neg hs], by omega⟩

theorem read_ok_of_prepare (st st1 : MessageDeframer) (src : List Nat)
    (h : st.prepare_read = .ok st1) :
    st.read src = .ok (min src.length (st1.buf.length - st1.used),
      {st1 with
        buf := st1.buf.take st1.used ++
          src.take (min src.length (st1.buf.length - st1.used)) ++
          st1.buf.drop (st1.used + min src.length (st1.buf.length - st1.used)),
        used := st1.used + min src.length (st1.buf.length - st1.used)}) := by
  unfold MessageDeframer.read
  rw [h]

/-- Claim C6: once the in-use byte count has reached the allowed ceiling
(`MAX_HANDSHAKE_SIZE` while a handshake accumulation is active,
`MAX_WIRE_SIZE` otherwise), `read` fails with the "message buffer full"
error and accepts no input; below the ceiling `read` succeeds, with buffer
capacity grown toward `used + READ_SIZE` capped at the ceiling (and shrunk
back to that cap when it exceeds the currently allowed ceiling). -/
theorem deframer_read_buffer_policy :
    (∀ st : MessageDeframer, ∀ src : List Nat, st.allowMax ≤ st.used →
      st.read src = .error "message buffer full") ∧
    (∀ st : MessageDeframer, ∀ src : List Nat, st.used < st.allowMax →
      ∃ n st2, st.read src = .ok (n, st2) ∧
        st2.used = st.used + n ∧
        st2.desynced = st.desynced ∧
        st2.joiningHs = st.joiningHs ∧
        st2.buf.length =
          (if st.buf.length < min st.allowMax (st.used + READ_SIZE) then
            min st.allowMax (st.used + READ_SIZE)
          else if st.allowMax < st.buf.length then
            min st.allowMax (st.used + READ_SIZE)
          else st.buf.length) ∧
        st2.buf.length ≤ max st.buf.length st.allowMax ∧
        n = min src.length (st2.buf.length - st.used)) := by
  constructor
  · intro st src h
    unfold MessageDeframer.read MessageDeframer.prepare_read
    rw [if_pos h]
  · intro st src h
    obtain ⟨st1, hprep, hused, hdes, hjoin, hdis, hlen, hge⟩ := prepare_read_ok st h
    have hlt : st.used < min st.allowMax (st.used + READ_SIZE) := by
      unfold READ_SIZE
      omega
    have hfits : st1.used + min src.length (st1.buf.length - st1.used) ≤
        st1.buf.length := by
      omega
    have hfill := listFill_length st1.buf src st1.used
      (min src.length (st1.buf.length - st1.used)) hfits (by omega)
    refine ⟨_, _, read_ok_of_prepare st st1 src hprep, ?_, hdes, hjoin, ?_, ?_, ?_⟩
    · rw [hused]
    · rw [hfill, hlen]
    · rw [hfill]
      split_ifs at hlen <;> omega
    · rw [hfill, hused]

/-- Witness for C6: a deframer whose in-use count sits exactly at the
no-accumulation ceiling refuses further input. -/
theorem deframer_read_buffer_policy_witness :
    (⟨false, [], none, 18437, 0⟩ : MessageDeframer).read [1, 2, 3] =
      .error "message buffer full" :=
  deframer_read_buffer_policy.1 ⟨false, [], none, 18437, 0⟩ [1, 2, 3]
    (by norm_num [MessageDeframer.allowMax, OpaqueMessage.MAX_WIRE_SIZE,
      OpaqueMessage.MAX_PAYLOAD, OpaqueMessage.HEADER_SIZE])

/-- Claim C2: a desynchronized deframer fails every `pop` immediately with
the same corruption error and unchanged state (fusing); a record-header
parse failure other than the two too-short conditions returns the corruption
error and sets the sticky flag, while the too-short conditions report
nothing-available without setting it. -/
theorem deframer_pop_fusing :
    (∀ d : OpaqueMessage → DecryptOutcome, ∀ fuel : Nat, ∀ st : MessageDeframer,
      st.desynced = true → st.pop d fuel = .res (.error .CorruptMessage) st) ∧
    (∀ d : OpaqueMessage → DecryptOutcome, ∀ fuel : Nat, ∀ st : MessageDeframer,
      ∀ e : MessageError,
      st.desynced = false → st.joiningHs = none → st.used ≠ 0 →
      OpaqueMessage.read (st.buf.take st.used) = .error e →
      ((e = .tooShortForHeader ∨ e = .tooShortForLength) →
        st.pop d (fuel + 1) = .res (.ok none) st) ∧
      ((e ≠ .tooShortForHeader ∧ e ≠ .tooShortForLength) →
        st.pop d (fuel + 1) =
          .res (.error .CorruptMessage) {st with desynced := true})) := by
  constructor
  · intro d fuel st h
    unfold MessageDeframer.pop
    rw [if_pos h]
  · intro d fuel st e hdes hjoin hused hread
    have hpop : st.pop d (fuel + 1) = popScan d (popLoop d fuel) st 0 := by
      unfold MessageDeframer.pop
      rw [if_neg (by simp [hdes]), if_neg hused]
      show popStep d (popLoop d fuel) st = _
      unfold popStep
      rw [hjoin]
    rw [hpop]
    unfold popScan
    rw [List.drop_zero, Nat.sub_zero, hread]
    constructor
    · rintro (rfl | rfl) <;> rfl
    · rintro ⟨h1, h2⟩
      cases e <;> first
        | exact absurd rfl h1
        | exact absurd rfl h2
        | rfl

/-- Witness for C2: a record with an unrecognized content type corrupts the
deframer, and the next `pop` fails identically. -/
theorem deframer_pop_fusing_witness :
    (⟨false, [99, 3, 3, 0, 1, 7], none, 6, 0⟩ : MessageDeframer).pop
        (fun _ => .rejected) 3 =
      .res (.error .CorruptMessage) ⟨true, [99, 3, 3, 0, 1, 7], none, 6, 0⟩ ∧
    (⟨true, [99, 3, 3, 0, 1, 7], none, 6, 0⟩ : MessageDeframer).pop
        (fun _ => .rejected) 3 =
      .res (.error .CorruptMessage) ⟨true, [99, 3, 3, 0, 1, 7], none, 6, 0⟩ :=
  ⟨(deframer_pop_fusing.2 (fun _ => .rejected) 2 ⟨false, [99, 3, 3, 0, 1, 7], none, 6, 0⟩
      .illegalContentType rfl rfl (by decide) rfl).2 (by simp),
   deframer_pop_fusing.1 (fun _ => .rejected) 3 ⟨true, [99, 3, 3, 0, 1, 7], none, 6, 0⟩ rfl⟩

/-- The always-rejecting record-protection collaborator (trial decryption
rejects every record). -/
def dfRejectAll : OpaqueMessage → DecryptOutcome := fun _ => .rejected

/-- A deframer holding two complete application-data records. -/
def stTwoRecords : MessageDeframer :=
  ⟨false, [23, 3, 3, 0, 1, 7, 23, 3, 3, 0, 1, 8], none, 12, 0⟩

/-- `stTwoRecords` after one loop iteration: only the pending-discard offset
has changed; the scan state has not advanced. -/
def stTwoRecordsAfter : MessageDeframer :=
  ⟨false, [23, 3, 3, 0, 1, 7, 23, 3, 3, 0, 1, 8], none, 12, 6⟩

/-- Claim C3 (code-bug evidence): with two buffered records whose first is
rejected by trial decryption and no accumulation in progress, `pop` records
the first record's range for pending discard but re-reads from the
unadvanced scan offset, so no amount of fuel ever reaches the second record:
the loop is stationary and yields no message for every fuel value. -/
theorem deframer_pop_rejected_never_advances (fuel : Nat) :
    stTwoRecords.pop dfRejectAll (fuel + 1) = .outOfFuel stTwoRecordsAfter := by
  have key : ∀ n, popLoop dfRejectAll n stTwoRecordsAfter =
      .outOfFuel stTwoRecordsAfter := by
    intro n
    induction n with
    | zero => rfl
    | succ k ih => exact ih
  exact key fuel
